import Mathlib

/-!
Verification of the batch test-creation webhook service (`server.js`).

The service ingests a batch of test-case descriptions over HTTP, creates one
issue per test case in the issue tracker, attaches steps through the
test-management service (authenticated with a per-request signed token whose
`qsh` claim commits to method, path and query string), links each test to its
requirement, and skips duplicates.

The embedding below models JavaScript values (`JsValue`), the string
operations the code relies on (split, trim, the numbering regex, JQL
escaping), SHA-256 (for the `qsh` claim), a JSON parser (for `JSON.parse` of
the `tests` field), and the request handler itself as a pure function from a
request body and an oracle of external-service responses (`World`) to a
response plus the trace of outbound calls.

Modelling conventions:
* JSON numbers are modelled as integers (`Int`); no claim involves
  fractional values.
* Machine-level details of the HMAC signature and compact JWT serialization
  are outside the modelled scope; the signed claim set (`ZephyrClaims`),
  including the `qsh` digest, is modelled bit-exactly.
* `Date.now()` is nondeterministic and enters the model as an explicit
  `epoch` parameter.
* Error messages produced by the JavaScript runtime itself (SyntaxError,
  TypeError) are represented by dedicated constructors; their host-defined
  message text is not modelled.
-/

/- ===== JavaScript value model ===== -/

/-- A JavaScript/JSON value. Numbers are modelled as integers. -/
inductive JsValue where
  | null
  | bool (b : Bool)
  | num (n : Int)
  | str (s : String)
  | arr (elems : List JsValue)
  | obj (fields : List (String × JsValue))

/-- JavaScript truthiness of a value (`!v` is `!truthyV v`). -/
def truthyV : JsValue → Bool
  | .null => false
  | .bool b => b
  | .num n => n != 0
  | .str s => s != ""
  | .arr _ => true
  | .obj _ => true

/-- Truthiness of a possibly-undefined value (property lookups yield
`Option JsValue`; `none` is JavaScript `undefined`, which is falsy). -/
def truthyO : Option JsValue → Bool
  | none => false
  | some v => truthyV v

/-- JavaScript property lookup `v.k`: defined only on objects (later duplicate
keys shadow earlier ones); on every non-object it yields `undefined`.
Property access on `null` throws and is handled at each use site. -/
def getProp (v : JsValue) (k : String) : Option JsValue :=
  match v with
  | .obj fields => ((fields.filter (fun f => f.1 == k)).getLast?).map (fun f => f.2)
  | _ => none

mutual

/-- JavaScript string coercion (template literals): `String(v)`. -/
def jsToString : JsValue → String
  | .null => "null"
  | .bool b => cond b "true" "false"
  | .num n => toString n
  | .str s => s
  | .arr xs => jsJoinElems xs
  | .obj _ => "[object Object]"

/-- JS `Array.prototype.toString`: elements joined with a comma, `null` rendered
as the empty string. -/
def jsJoinElems : List JsValue → String
  | [] => ""
  | [v] => jsElemToString v
  | v :: rest => jsElemToString v ++ "," ++ jsJoinElems rest

def jsElemToString : JsValue → String
  | .null => ""
  | v => jsToString v

end

/- ===== String operations used by the service ===== -/

/-- JS `String.prototype.split` with a one-character separator (the code splits
only on `"\n"` and `"-"`). -/
def splitChar (sep : Char) : List Char → List (List Char)
  | [] => [[]]
  | c :: rest =>
    let r := splitChar sep rest
    if c = sep then [] :: r
    else (c :: r.headD []) :: r.tail

/-- The JavaScript whitespace class used by `String.prototype.trim` and the
regex class `\s`. -/
def jsWhitespace (c : Char) : Bool :=
  let n := c.toNat
  n = 0x20 || n = 0x9 || n = 0xa || n = 0xd || n = 0xb || n = 0xc ||
  n = 0xa0 || n = 0x1680 || (0x2000 ≤ n && n ≤ 0x200a) ||
  n = 0x2028 || n = 0x2029 || n = 0x202f || n = 0x205f || n = 0x3000 ||
  n = 0xfeff

/-- JS `String.prototype.trim`. -/
def jsTrim (s : String) : String :=
  String.mk (((s.data.dropWhile jsWhitespace).reverse.dropWhile jsWhitespace).reverse)

/-- The regex digit class `\d` (ASCII digits). -/
def isAsciiDigit (c : Char) : Bool := '0' ≤ c && c ≤ '9'

/-- The replace step `step.replace(/^\d+\.\s*/, "")`: strip one or more leading digits followed
by a literal dot and any whitespace; leave the string unchanged when the
pattern does not match at the start. -/
def stripLeadingNumbering (s : String) : String :=
  let cs := s.data
  let ds := cs.takeWhile isAsciiDigit
  if ds.isEmpty then s
  else
    match cs.drop ds.length with
    | '.' :: rest => String.mk (rest.dropWhile jsWhitespace)
    | _ => s

/- ===== Step formatting (`parseNumberedSteps`) ===== -/

/-- JavaScript `v || ""` applied to a possibly-undefined value: keep `v` when
it is truthy, otherwise the empty string. -/
def jsOrEmptyStr (o : Option JsValue) : JsValue :=
  match o with
  | some v => if truthyV v then v else .str ""
  | none => .str ""

/-- The function `parseNumberedSteps(stepsString, expectedResult)`: on a truthy string,
split on newlines, trim every line, drop blank lines, strip a leading
numbering pattern, and build one step object per line with empty `data`;
`result` is empty on every step except the last, which receives
`expectedResult || ""`. Any non-string (or falsy) input yields `[]`. -/
def parseNumberedSteps (stepsString : JsValue) (expectedResult : Option JsValue) :
    List JsValue :=
  match stepsString with
  | .str s =>
    if s = "" then []
    else
      let stepsArray :=
        ((((splitChar '\n' s.data).map (fun l => jsTrim (String.mk l))).filter
          (fun l => l != "")).map stripLeadingNumbering)
      stepsArray.mapIdx (fun index stepText =>
        JsValue.obj [("step", .str stepText), ("data", .str ""),
          ("result",
            if index = stepsArray.length - 1 then jsOrEmptyStr expectedResult
            else .str "")])
  | _ => []

/-- Shorthand for the step objects `parseNumberedSteps` builds, used in
theorem statements. -/
def mkStep (stepText : String) (result : JsValue) : JsValue :=
  .obj [("step", .str stepText), ("data", .str ""), ("result", result)]

/-- The handler's step-preparation block: an array input passes through
unchanged, a string input goes through `parseNumberedSteps` with the item's
`expectedresult` property, anything else yields `[]`. -/
def formatSteps (test : JsValue) : List JsValue :=
  match getProp test "steps" with
  | some (.arr xs) => xs
  | some (.str s) => parseNumberedSteps (.str s) (getProp test "expectedresult")
  | _ => []

/- ===== JQL escaping and the duplicate-check query ===== -/

/-- One character of `escapeJQL`: `text.replace(/["\\]/g, "\\$&")` prefixes
every double quote and backslash with a backslash. -/
def escapeJQLChar (c : Char) : List Char :=
  if c = '"' || c = '\\' then ['\\', c] else [c]

def escapeJQLData (cs : List Char) : List Char := cs.flatMap escapeJQLChar

/-- The function `escapeJQL(text)`. -/
def escapeJQL (text : String) : String := String.mk (escapeJQLData text.data)

/-- The JQL built by `checkDuplicateTest`: the test name is escaped with
`escapeJQL`; the story key is interpolated into `linkedIssues("...")`
verbatim. -/
def duplicateCheckJql (projectKey storyKey testName : String) : String :=
  "project = " ++ projectKey ++
  " AND issuetype = Test AND summary = \"" ++ escapeJQL testName ++
  "\" AND issue in linkedIssues(\"" ++ storyKey ++ "\")"

/-- A JQL lexer's scan of a double-quoted string literal, starting just after
the opening quote: a backslash makes the next character literal, an unescaped
quote ends the literal. Returns the unescaped content and the remaining
input. Used to state that an escaped embedding parses back exactly. -/
def scanStringLit : List Char → Option (List Char × List Char)
  | [] => none
  | c :: rest =>
    if c = '\\' then
      match rest with
      | [] => none
      | c2 :: rest2 => (scanStringLit rest2).map (fun pr => (c2 :: pr.1, pr.2))
    else if c = '"' then some ([], rest)
    else (scanStringLit rest).map (fun pr => (c :: pr.1, pr.2))

/- ===== SHA-256 (the `qsh` digest: `crypto.createHash("sha256")`) ===== -/

/-- Truncation to a 32-bit word. -/
def w32 (n : Nat) : Nat := n % 4294967296

/-- 32-bit right rotation. -/
def rotr32 (n x : Nat) : Nat := w32 ((x >>> n) ||| (x <<< (32 - n)))

def sha256Ch (x y z : Nat) : Nat := (x &&& y) ^^^ ((x ^^^ 0xffffffff) &&& z)

def sha256Maj (x y z : Nat) : Nat := (x &&& y) ^^^ (x &&& z) ^^^ (y &&& z)

def sha256BigSigma0 (x : Nat) : Nat := rotr32 2 x ^^^ rotr32 13 x ^^^ rotr32 22 x

def sha256BigSigma1 (x : Nat) : Nat := rotr32 6 x ^^^ rotr32 11 x ^^^ rotr32 25 x

def sha256SmallSigma0 (x : Nat) : Nat := rotr32 7 x ^^^ rotr32 18 x ^^^ (x >>> 3)

def sha256SmallSigma1 (x : Nat) : Nat := rotr32 17 x ^^^ rotr32 19 x ^^^ (x >>> 10)

/-- The SHA-256 round constants. -/
def sha256K : List Nat :=
  [1116352408, 1899447441, 3049323471, 3921009573, 961987163,
   1508970993, 2453635748, 2870763221, 3624381080, 310598401,
   607225278, 1426881987, 1925078388, 2162078206, 2614888103,
   3248222580, 3835390401, 4022224774, 264347078, 604807628,
   770255983, 1249150122, 1555081692, 1996064986, 2554220882,
   2821834349, 2952996808, 3210313671, 3336571891, 3584528711,
   113926993, 338241895, 666307205, 773529912, 1294757372,
   1396182291, 1695183700, 1986661051, 2177026350, 2456956037,
   2730485921, 2820302411, 3259730800, 3345764771, 3516065817,
   3600352804, 4094571909, 275423344, 430227734, 506948616,
   659060556, 883997877, 958139571, 1322822218, 1537002063,
   1747873779, 1955562222, 2024104815, 2227730452, 2361852424,
   2428436474, 2756734187, 3204031479, 3329325298]

/-- The SHA-256 initial hash value. -/
def sha256H0 : List Nat :=
  [1779033703, 3144134277, 1013904242, 2773480762,
   1359893119, 2600822924, 528734635, 1541459225]

/-- UTF-8 encoding of one character, as byte values (the digest is computed
over the UTF-8 bytes of the canonical string). -/
def utf8EncodeCharNat (c : Char) : List Nat :=
  let n := c.toNat
  if n < 0x80 then [n]
  else if n < 0x800 then
    [0xc0 ||| (n >>> 6), 0x80 ||| (n &&& 0x3f)]
  else if n < 0x10000 then
    [0xe0 ||| (n >>> 12), 0x80 ||| ((n >>> 6) &&& 0x3f), 0x80 ||| (n &&& 0x3f)]
  else
    [0xf0 ||| (n >>> 18), 0x80 ||| ((n >>> 12) &&& 0x3f),
     0x80 ||| ((n >>> 6) &&& 0x3f), 0x80 ||| (n &&& 0x3f)]

def utf8Bytes (s : String) : List Nat := s.data.flatMap utf8EncodeCharNat

/-- Big-endian bytes: `w` bytes of `n`. -/
def beBytes : Nat → Nat → List Nat
  | 0, _ => []
  | w+1, n => beBytes w (n >>> 8) ++ [n &&& 0xff]

/-- SHA-256 message padding: append `0x80`, zero bytes to 56 mod 64, then the
bit length as a 64-bit big-endian integer. -/
def sha256Pad (msg : List Nat) : List Nat :=
  let L := msg.length
  let k := (64 - ((L + 9) % 64)) % 64
  msg ++ [0x80] ++ List.replicate k 0 ++ beBytes 8 (L * 8)

/-- Group bytes into 32-bit big-endian words. -/
def bytesToWords : List Nat → List Nat
  | b0 :: b1 :: b2 :: b3 :: rest =>
    ((((b0 <<< 24) ||| (b1 <<< 16)) ||| (b2 <<< 8)) ||| b3) :: bytesToWords rest
  | _ => []

/-- Split a word list into 16-word blocks (fuel-driven for structural
recursion; the fuel is the list length, which always suffices). -/
def chunksOf16 : Nat → List Nat → List (List Nat)
  | 0, _ => []
  | _, [] => []
  | fuel+1, ws => ws.take 16 :: chunksOf16 fuel (ws.drop 16)

/-- Extend a 16-word block to the 64-entry message schedule. -/
def sha256Schedule (block : List Nat) : Array Nat :=
  (List.range 48).foldl
    (fun arr _ =>
      let t := arr.size
      arr.push (w32 (sha256SmallSigma1 (arr.getD (t - 2) 0) + arr.getD (t - 7) 0 +
        sha256SmallSigma0 (arr.getD (t - 15) 0) + arr.getD (t - 16) 0)))
    block.toArray

structure Sha256State where
  a : Nat
  b : Nat
  c : Nat
  d : Nat
  e : Nat
  f : Nat
  g : Nat
  h : Nat

def sha256Round (st : Sha256State) (kt wt : Nat) : Sha256State :=
  let t1 := w32 (st.h + sha256BigSigma1 st.e + sha256Ch st.e st.f st.g + kt + wt)
  let t2 := w32 (sha256BigSigma0 st.a + sha256Maj st.a st.b st.c)
  ⟨w32 (t1 + t2), st.a, st.b, st.c, w32 (st.d + t1), st.e, st.f, st.g⟩

/-- One SHA-256 compression step over a 16-word block. -/
def sha256Compress (hs : List Nat) (block : List Nat) : List Nat :=
  let ws := sha256Schedule block
  let g0 := fun i => hs.getD i 0
  let init : Sha256State := ⟨g0 0, g0 1, g0 2, g0 3, g0 4, g0 5, g0 6, g0 7⟩
  let fin := (List.range 64).foldl
    (fun st t => sha256Round st (sha256K.getD t 0) (ws.getD t 0)) init
  [w32 (g0 0 + fin.a), w32 (g0 1 + fin.b), w32 (g0 2 + fin.c), w32 (g0 3 + fin.d),
   w32 (g0 4 + fin.e), w32 (g0 5 + fin.f), w32 (g0 6 + fin.g), w32 (g0 7 + fin.h)]

/-- SHA-256 of a byte sequence, as eight 32-bit words. -/
def sha256WordsOf (msg : List Nat) : List Nat :=
  let padded := sha256Pad msg
  (chunksOf16 padded.length (bytesToWords padded)).foldl sha256Compress sha256H0

def hexDigitChar (n : Nat) : Char :=
  if n < 10 then Char.ofNat (48 + n) else Char.ofNat (87 + n)

def wordToHex (w : Nat) : List Char :=
  [hexDigitChar ((w >>> 28) &&& 0xf), hexDigitChar ((w >>> 24) &&& 0xf),
   hexDigitChar ((w >>> 20) &&& 0xf), hexDigitChar ((w >>> 16) &&& 0xf),
   hexDigitChar ((w >>> 12) &&& 0xf), hexDigitChar ((w >>> 8) &&& 0xf),
   hexDigitChar ((w >>> 4) &&& 0xf), hexDigitChar (w &&& 0xf)]

/-- Hex SHA-256 of a string: `crypto.createHash("sha256").update(s).digest("hex")`. -/
def sha256Hex (s : String) : String :=
  String.mk ((sha256WordsOf (utf8Bytes s)).flatMap wordToHex)

/- ===== Zephyr request signing (`generateZephyrJWT`, `addTestSteps`) ===== -/

/-- Uppercasing `method.toUpperCase()` (ASCII case mapping; HTTP method names are
ASCII). -/
def toUpperAscii (s : String) : String := String.mk (s.data.map Char.toUpper)

/-- The canonical string built by `generateZephyrJWT`:
`METHOD&PATH&QUERYSTRING` with the method uppercased and the path and query
string used exactly as supplied by the caller. -/
def zephyrCanonical (method apiPath queryString : String) : String :=
  toUpperAscii method ++ "&" ++ apiPath ++ "&" ++ queryString

/-- The claim set signed by `generateZephyrJWT` (`iss`, `iat`, `exp`,
`qsh`). The HMAC signature and compact serialization are outside the modelled
scope; `epoch` stands for `Math.floor(Date.now() / 1000)`. -/
structure ZephyrClaims where
  iss : String
  iat : Nat
  exp : Nat
  qsh : String

def generateZephyrJWT (accessKey : String) (epoch : Nat)
    (method apiPath queryString : String) : ZephyrClaims :=
  ⟨accessKey, epoch, epoch + 60,
    sha256Hex (zephyrCanonical method apiPath queryString)⟩

def ZEPHYR_BASE : String := "https://prod-api.zephyr4jiracloud.com"

/-- The API path `addTestSteps` interpolates:
`/connect/public/rest/api/1.0/teststep/<issueKey>`. -/
def addTestStepsApiPath (issueKey : JsValue) : String :=
  "/connect/public/rest/api/1.0/teststep/" ++ jsToString issueKey

/-- The query string `addTestSteps` interpolates: `projectId=<projectId>`. -/
def addTestStepsQueryString (projectId : JsValue) : String :=
  "projectId=" ++ jsToString projectId

/-- The URL `addTestSteps` posts each step to:
`ZEPHYR_BASE + apiPath + "?" + queryString`. -/
def addTestStepsUrl (issueKey projectId : JsValue) : String :=
  ZEPHYR_BASE ++ addTestStepsApiPath issueKey ++ "?" ++
    addTestStepsQueryString projectId

/-- The `(method, apiPath, queryString)` triple `addTestSteps` passes to
`generateZephyrJWT`. -/
def addTestStepsSignerArgs (issueKey projectId : JsValue) :
    String × String × String :=
  ("POST", addTestStepsApiPath issueKey, addTestStepsQueryString projectId)

/- ===== Spec-side canonicalization (for comparison only) ===== -/

/-- Modelled from the spec: byte/codepoint comparison of strings, the key
order the spec prescribes for canonical query strings. -/
def codepointLeData (a b : List Char) : Bool :=
  match a, b with
  | [], _ => true
  | _ :: _, [] => false
  | c :: a', d :: b' =>
    if c.toNat < d.toNat then true
    else if d.toNat < c.toNat then false
    else codepointLeData a' b'

def codepointLe (a b : String) : Bool := codepointLeData a.data b.data

def insertSortedBy (le : α → α → Bool) (a : α) : List α → List α
  | [] => [a]
  | b :: l => if le a b then a :: b :: l else b :: insertSortedBy le a l

def sortParamsByKey (ps : List (String × String)) : List (String × String) :=
  ps.foldr (insertSortedBy (fun p q => codepointLe p.1 q.1)) []

def uppercaseHexDigit (n : Nat) : Char :=
  if n < 10 then Char.ofNat (48 + n) else Char.ofNat (55 + n)

/-- Modelled from the spec: percent-encoding of one character
(`encodeURIComponent`); unreserved characters pass through, everything else
becomes percent-escaped UTF-8 bytes. -/
def percentEncodeChar (c : Char) : List Char :=
  let unreserved :=
    ('A' ≤ c && c ≤ 'Z') || ('a' ≤ c && c ≤ 'z') || ('0' ≤ c && c ≤ '9') ||
    c = '-' || c = '_' || c = '.' || c = '~' || c = '!' || c = '*' ||
    c = '\'' || c = '(' || c = ')'
  if unreserved then [c]
  else
    (utf8EncodeCharNat c).flatMap
      (fun b => ['%', uppercaseHexDigit (b >>> 4), uppercaseHexDigit (b &&& 0xf)])

def percentEncode (s : String) : String := String.mk (s.data.flatMap percentEncodeChar)

/-- Modelled from the spec: the canonical query string the spec prescribes —
parameters sorted by key in byte/codepoint order, keys and values
percent-encoded, joined as `key=value` with `&`. -/
def specCanonicalQueryString (ps : List (String × String)) : String :=
  String.intercalate "&"
    ((sortParamsByKey ps).map (fun p => percentEncode p.1 ++ "=" ++ percentEncode p.2))

/-- A query string serialized from parameters in their given input order,
without re-encoding — the form a caller hands to `generateZephyrJWT`. -/
def renderQueryInOrder (ps : List (String × String)) : String :=
  String.intercalate "&" (ps.map (fun p => p.1 ++ "=" ++ p.2))

/-- Modelled from the spec: the single shared request descriptor (method,
path, query string) that the design requires both the signer and the
transport call to be derived from. -/
structure RequestDesc where
  method : String
  path : String
  query : String

def specTransmittedUrl (d : RequestDesc) : String :=
  ZEPHYR_BASE ++ d.path ++ "?" ++ d.query

def specSignerInput (d : RequestDesc) : String × String × String :=
  (d.method, d.path, d.query)

/- ===== JSON.parse ===== -/

def jsonWsChar (c : Char) : Bool := c = ' ' || c = '\t' || c = '\n' || c = '\r'

def skipJsonWs (cs : List Char) : List Char := cs.dropWhile jsonWsChar

def hexVal (c : Char) : Option Nat :=
  if '0' ≤ c && c ≤ '9' then some (c.toNat - 48)
  else if 'a' ≤ c && c ≤ 'f' then some (c.toNat - 87)
  else if 'A' ≤ c && c ≤ 'F' then some (c.toNat - 55)
  else none

def jsonEscapeChar (e : Char) : Option Char :=
  if e = '"' then some '"'
  else if e = '\\' then some '\\'
  else if e = '/' then some '/'
  else if e = 'b' then some '\x08'
  else if e = 'f' then some '\x0c'
  else if e = 'n' then some '\n'
  else if e = 'r' then some '\r'
  else if e = 't' then some '\t'
  else none

/-- Scan of a JSON string literal after the opening quote. Surrogate escapes
are not modelled (Lean characters are scalar values); no claim involves
them. -/
def parseJsonStringBody : List Char → Option (List Char × List Char)
  | [] => none
  | '"' :: rest => some ([], rest)
  | '\\' :: 'u' :: a :: b :: c :: d :: rest =>
    (match hexVal a, hexVal b, hexVal c, hexVal d with
     | some ha, some hb, some hc, some hd =>
       let n := ((ha * 16 + hb) * 16 + hc) * 16 + hd
       if n < 0xd800 || 0xdfff < n then
         (parseJsonStringBody rest).map (fun pr => (Char.ofNat n :: pr.1, pr.2))
       else none
     | _, _, _, _ => none)
  | '\\' :: e :: rest =>
    (match jsonEscapeChar e with
     | some c => (parseJsonStringBody rest).map (fun pr => (c :: pr.1, pr.2))
     | none => none)
  | c :: rest =>
    if c.toNat < 0x20 then none
    else (parseJsonStringBody rest).map (fun pr => (c :: pr.1, pr.2))

/-- JSON number parsing, restricted to integers (fractional and exponent
forms are outside the modelled scope; no claim involves them). -/
def parseJsonNumber (cs : List Char) : Option (JsValue × List Char) :=
  let pr := match cs with
    | '-' :: r => (true, r)
    | _ => (false, cs)
  let ds := pr.2.takeWhile isAsciiDigit
  if ds.isEmpty then none
  else
    let rest := pr.2.drop ds.length
    match rest with
    | '.' :: _ => none
    | 'e' :: _ => none
    | 'E' :: _ => none
    | _ =>
      let n : Nat := ds.foldl (fun a c => a * 10 + (c.toNat - 48)) 0
      some (.num (if pr.1 then -(n : Int) else (n : Int)), rest)

mutual

def parseJsonValue : Nat → List Char → Option (JsValue × List Char)
  | 0, _ => none
  | fuel+1, cs =>
    match skipJsonWs cs with
    | 'n' :: 'u' :: 'l' :: 'l' :: rest => some (.null, rest)
    | 't' :: 'r' :: 'u' :: 'e' :: rest => some (.bool true, rest)
    | 'f' :: 'a' :: 'l' :: 's' :: 'e' :: rest => some (.bool false, rest)
    | '"' :: rest =>
      (parseJsonStringBody rest).map (fun pr => (.str (String.mk pr.1), pr.2))
    | '[' :: rest =>
      (match skipJsonWs rest with
       | ']' :: rest2 => some (.arr [], rest2)
       | cs2 => (parseJsonItems fuel cs2).map (fun pr => (.arr pr.1, pr.2)))
    | '\x7b' :: rest =>
      (match skipJsonWs rest with
       | '\x7d' :: rest2 => some (.obj [], rest2)
       | cs2 => (parseJsonFields fuel cs2).map (fun pr => (.obj pr.1, pr.2)))
    | cs2 => parseJsonNumber cs2

def parseJsonItems : Nat → List Char → Option (List JsValue × List Char)
  | 0, _ => none
  | fuel+1, cs =>
    match parseJsonValue fuel cs with
    | none => none
    | some (v, rest) =>
      match skipJsonWs rest with
      | ',' :: rest2 => (parseJsonItems fuel rest2).map (fun pr => (v :: pr.1, pr.2))
      | ']' :: rest2 => some ([v], rest2)
      | _ => none

def parseJsonFields : Nat → List Char → Option (List (String × JsValue) × List Char)
  | 0, _ => none
  | fuel+1, cs =>
    match skipJsonWs cs with
    | '"' :: rest =>
      (match parseJsonStringBody rest with
       | none => none
       | some (k, rest1) =>
         match skipJsonWs rest1 with
         | ':' :: rest2 =>
           (match parseJsonValue fuel rest2 with
            | none => none
            | some (v, rest3) =>
              match skipJsonWs rest3 with
              | ',' :: rest4 =>
                (parseJsonFields fuel rest4).map
                  (fun pr => ((String.mk k, v) :: pr.1, pr.2))
              | '\x7d' :: rest4 => some ([(String.mk k, v)], rest4)
              | _ => none)
         | _ => none)
    | _ => none

end

/-- The model of `JSON.parse`: parse one value, allow surrounding whitespace, require the
whole input to be consumed; `none` models a thrown `SyntaxError`. -/
def jsonParse (s : String) : Option JsValue :=
  match parseJsonValue (2 * s.data.length + 2) s.data with
  | some (v, rest) => if (skipJsonWs rest).isEmpty then some v else none
  | none => none

/- ===== Errors, responses, calls, and the external-service oracle ===== -/

/-- A thrown JavaScript error as seen by the handler's `catch`. An `axios`
failure carries the optional response payload (`error.response?.data`) and the
error message; `SyntaxError` (from `JSON.parse`) and `TypeError` (from the
runtime) have host-defined messages that are not modelled. -/
inductive JsErr where
  | axios (data : Option JsValue) (message : String)
  | syntaxError
  | typeError

/-- The payload the catch block serializes:
`error.response?.data || error.message`. For the runtime errors the
host-defined message string stands in. -/
def jsErrBody : JsErr → JsValue
  | .axios data message =>
    (match data with
     | some d => if truthyV d then d else .str message
     | none => .str message)
  | .syntaxError => .str "SyntaxError"
  | .typeError => .str "TypeError"

/-- The one JSON response per request. -/
inductive Response where
  | badRequest (error : String)
  | serverError (error : JsErr)
  | completed (message : String) (created skipped : Nat)

def statusCode : Response → Nat
  | .badRequest _ => 400
  | .serverError _ => 500
  | .completed _ _ _ => 200

/-- One outbound HTTP call, with the data the code sends. -/
inductive Call where
  | getProject (projectKey : String)
  | search (jql : String)
  | createIssue (projectKey : String) (summary : JsValue) (objectiveText : JsValue)
  | addStep (url : String) (body : JsValue)
  | link (testKey : JsValue) (storyKey : String)

/-- Oracle of external-service responses: for each outbound call the
environment decides whether it succeeds (the field of the response the code
reads) or throws. -/
structure World where
  projectIdResp : String → Except JsErr JsValue
  searchTotal : String → Except JsErr Int
  createIssueKey : String → JsValue → JsValue → Except JsErr JsValue
  stepResp : String → JsValue → Except JsErr Unit
  linkResp : JsValue → String → Except JsErr Unit

/- ===== The per-item pipeline ===== -/

/-- The body posted for one step: an object with `step` from `s.step`,
`data` from `s.data || ""` and `result` from `s.result || ""`. A `step` field
read as `undefined` is dropped by JSON serialization. -/
def stepPostBody (s : JsValue) : JsValue :=
  .obj ((match getProp s "step" with
         | some v => [("step", v)]
         | none => []) ++
        [("data", jsOrEmptyStr (getProp s "data")),
         ("result", jsOrEmptyStr (getProp s "result"))])

/-- The per-step loop of `addTestSteps`: post each step in order to `url`,
stopping at the first failure. A `null` step throws (`s.step` on `null`)
before any call is made for it. -/
def addSteps (w : World) (url : String) : List JsValue → List Call × Except JsErr Unit
  | [] => ([], .ok ())
  | .null :: _ => ([], .error .typeError)
  | s :: rest =>
    let body := stepPostBody s
    match w.stepResp url body with
    | .error e => ([.addStep url body], .error e)
    | .ok _ =>
      let pr := addSteps w url rest
      (.addStep url body :: pr.1, pr.2)

inductive ItemOutcome where
  | skip
  | made

/-- One iteration of the handler's `for (const test of parsedTests)` body:
validate, look up the project id, check for a duplicate, create the issue,
publish steps, link to the story. Returns the outbound calls made for this
item and either an outcome (counter to bump) or the thrown error. -/
def processItem (w : World) (t : JsValue) : List Call × Except JsErr ItemOutcome :=
  match t with
  | .null => ([], .error .typeError)
  | t =>
    if !truthyO (getProp t "requirementId") || !truthyO (getProp t "name") then
      ([], .ok .skip)
    else
      match getProp t "requirementId" with
      | some (.str storyKey) =>
        let projectKey := String.mk ((splitChar '-' storyKey.data).headD [])
        (match w.projectIdResp projectKey with
         | .error e => ([.getProject projectKey], .error e)
         | .ok projectId =>
           match getProp t "name" with
           | some (.str testName) =>
             let jql := duplicateCheckJql projectKey storyKey testName
             (match w.searchTotal jql with
              | .error e => ([.getProject projectKey, .search jql], .error e)
              | .ok total =>
                if 0 < total then
                  ([.getProject projectKey, .search jql], .ok .skip)
                else
                  let objectiveText := jsOrEmptyStr (getProp t "objective")
                  (match w.createIssueKey projectKey (.str testName) objectiveText with
                   | .error e =>
                     ([.getProject projectKey, .search jql,
                       .createIssue projectKey (.str testName) objectiveText], .error e)
                   | .ok createdTestKey =>
                     let calls0 : List Call :=
                       [.getProject projectKey, .search jql,
                        .createIssue projectKey (.str testName) objectiveText]
                     let formattedSteps := formatSteps t
                     let stepRes :=
                       if 0 < formattedSteps.length then
                         addSteps w (addTestStepsUrl createdTestKey projectId) formattedSteps
                       else ([], .ok ())
                     match stepRes with
                     | (tr, .error e) => (calls0 ++ tr, .error e)
                     | (tr, .ok _) =>
                       match w.linkResp createdTestKey storyKey with
                       | .error e =>
                         (calls0 ++ tr ++ [.link createdTestKey storyKey], .error e)
                       | .ok _ =>
                         (calls0 ++ tr ++ [.link createdTestKey storyKey], .ok .made)))
           | some _ => ([.getProject projectKey], .error .typeError)
           | none => ([.getProject projectKey], .error .typeError))
      | some _ => ([], .error .typeError)
      | none => ([], .error .typeError)

/-- The sequential batch loop with the `created`/`skipped` accumulators. The
first thrown error aborts the remaining items. -/
def runBatch (w : World) : List JsValue → Nat → Nat → List Call × Except JsErr (Nat × Nat)
  | [], created, skipped => ([], .ok (created, skipped))
  | t :: rest, created, skipped =>
    match processItem w t with
    | (tr, .error e) => (tr, .error e)
    | (tr, .ok o) =>
      let next :=
        match o with
        | .skip => runBatch w rest created (skipped + 1)
        | .made => runBatch w rest (created + 1) skipped
      (tr ++ next.1, next.2)

/- ===== The endpoint ===== -/

/-- The loop `for (const test of parsedTests)` requires an iterable: arrays iterate
their elements, strings iterate their characters (as one-character strings);
anything else throws a `TypeError`. -/
def jsIterate : JsValue → Option (List JsValue)
  | .arr xs => some xs
  | .str s => some (s.data.map (fun c => .str c.toString))
  | _ => none

/-- The handler's prologue: destructure `tests` from the request body, answer
`400` when it is absent or falsy, `JSON.parse` it when it is a string (a parse
failure throws), then hand the parsed value to the `for...of` loop (a
non-iterable throws). -/
def decodeBatch (body : JsValue) : Except Response (List JsValue) :=
  match body with
  | .null => .error (.serverError .typeError)
  | body =>
    match getProp body "tests" with
    | none => .error (.badRequest "No tests received")
    | some t =>
      if !truthyV t then .error (.badRequest "No tests received")
      else
        match (match t with
               | .str s =>
                 (match jsonParse s with
                  | none => Except.error (Response.serverError .syntaxError)
                  | some v => Except.ok v)
               | v => Except.ok v) with
        | .error r => .error r
        | .ok parsed =>
          match jsIterate parsed with
          | none => .error (.serverError .typeError)
          | some items => .ok items

/-- The endpoint `app.post("/create-tests")`: the whole request handler, returning the one
response plus the trace of outbound calls. -/
def createTestsHandler (w : World) (body : JsValue) : Response × List Call :=
  match decodeBatch body with
  | .error r => (r, [])
  | .ok parsedTests =>
    match runBatch w parsedTests 0 0 with
    | (tr, .ok pr) => (.completed "Completed" pr.1 pr.2, tr)
    | (tr, .error e) => (.serverError e, tr)

/- ===== Helper lemmas and fixtures ===== -/

theorem string_append_nil (s : String) : s ++ "" = s := by
  cases s with
  | mk d => exact congrArg String.mk (List.append_nil d)

/-- Appending on the left is cancellable for strings. -/
theorem string_append_left_cancel (a b c : String) (h : a ++ b = a ++ c) : b = c := by
  have hd : a.data ++ b.data = a.data ++ c.data := congrArg String.data h
  have hbc : b.data = c.data := List.append_cancel_left hd
  cases b with
  | mk db =>
    cases c with
    | mk dc => exact congrArg String.mk hbc

def jsIsNull : JsValue → Bool
  | .null => true
  | _ => false

/-- An oracle on which every external call succeeds. -/
def benignWorld : World :=
  ⟨fun _ => .ok (.str "10001"),
   fun _ => .ok 0,
   fun _ _ _ => .ok (.str "PROJ-2"),
   fun _ _ => .ok (),
   fun _ _ => .ok ()⟩

/- ===== C1 ===== -/

/-- C1: for the step-publish request the signer builds the canonical string
`METHOD&PATH&QUERYSTRING` with the method uppercased and literal ampersand
separators (also when the query string is empty): `addTestSteps` passes path
`/connect/public/rest/api/1.0/teststep/<issueKey>` and query
`projectId=<projectId>`, for issue key `12345` and project id `10001` the
canonical string is exactly
`POST&/connect/public/rest/api/1.0/teststep/12345&projectId=10001`, and the
`qsh` claim is the hex-encoded SHA-256 digest of that canonical string. -/
theorem C1_canonical_string_and_qsh (accessKey : String) (epoch : Nat) :
    addTestStepsApiPath (.str "12345") = "/connect/public/rest/api/1.0/teststep/12345" ∧
    addTestStepsQueryString (.str "10001") = "projectId=10001" ∧
    zephyrCanonical "POST" "/connect/public/rest/api/1.0/teststep/12345" "projectId=10001" =
      "POST&/connect/public/rest/api/1.0/teststep/12345&projectId=10001" ∧
    (generateZephyrJWT accessKey epoch "POST" "/connect/public/rest/api/1.0/teststep/12345"
        "projectId=10001").qsh =
      sha256Hex "POST&/connect/public/rest/api/1.0/teststep/12345&projectId=10001" ∧
    (∀ apiPath : String, zephyrCanonical "POST" apiPath "" = "POST&" ++ apiPath ++ "&") := by
  refine ⟨?_, ?_, by decide, rfl, ?_⟩
  · simp only [addTestStepsApiPath, jsToString]
    decide
  · simp only [addTestStepsQueryString, jsToString]
    decide
  · intro apiPath
    show toUpperAscii "POST" ++ "&" ++ apiPath ++ "&" ++ "" = "POST&" ++ apiPath ++ "&"
    rw [string_append_nil]
    have h1 : toUpperAscii "POST" ++ "&" = "POST&" := by decide
    rw [h1]

/- ===== C2 ===== -/

/-- C2 counterexample: `generateZephyrJWT` does not sort query parameters by
key and does not percent-encode them — the caller-supplied query string enters
the canonical string verbatim. For the parameters `b=2, a=1` given in that
order the canonical string keeps the unsorted order, differing from the
sorted, percent-encoded canonical query string the claim prescribes; a value
needing encoding (a space) is likewise left raw. -/
theorem C2_counterexample :
    renderQueryInOrder [("b", "2"), ("a", "1")] = "b=2&a=1" ∧
    specCanonicalQueryString [("b", "2"), ("a", "1")] = "a=1&b=2" ∧
    zephyrCanonical "POST" "/x" (renderQueryInOrder [("b", "2"), ("a", "1")]) =
      "POST&/x&b=2&a=1" ∧
    ((zephyrCanonical "POST" "/x" (renderQueryInOrder [("b", "2"), ("a", "1")]) ==
      toUpperAscii "POST" ++ "&" ++ "/x" ++ "&" ++
        specCanonicalQueryString [("b", "2"), ("a", "1")]) = false) ∧
    specCanonicalQueryString [("a", "x y")] = "a=x%20y" ∧
    ((zephyrCanonical "POST" "/x" (renderQueryInOrder [("a", "x y")]) ==
      toUpperAscii "POST" ++ "&" ++ "/x" ++ "&" ++
        specCanonicalQueryString [("a", "x y")]) = false) := by decide

/-- C2 (amended): the signer hashes the caller-supplied query string verbatim
— no sorting by key and no percent-encoding is applied. The QSH is the hex
SHA-256 of `METHOD&PATH&QUERYSTRING` and is deterministic for identical
inputs; the canonical string determines the query string injectively, so two
differently-ordered serializations of the same parameters produce different
canonical strings rather than one canonical form. -/
theorem C2_amended_verbatim_query (accessKey : String) (epoch : Nat)
    (method apiPath q1 q2 : String) :
    ((generateZephyrJWT accessKey epoch method apiPath q1).qsh =
      sha256Hex (zephyrCanonical method apiPath q1)) ∧
    (q1 = q2 →
      (generateZephyrJWT accessKey epoch method apiPath q1).qsh =
        (generateZephyrJWT accessKey epoch method apiPath q2).qsh) ∧
    (zephyrCanonical method apiPath q1 = zephyrCanonical method apiPath q2 → q1 = q2) := by
  refine ⟨rfl, fun h => by rw [h], fun h => ?_⟩
  exact string_append_left_cancel (toUpperAscii method ++ "&" ++ apiPath ++ "&") q1 q2 h

theorem C2_amended_verbatim_query_witness :
    (generateZephyrJWT "key" 0 "POST" "/x" "a=1").qsh =
      sha256Hex (zephyrCanonical "POST" "/x" "a=1") ∧
    (generateZephyrJWT "key" 0 "POST" "/x" "a=1").qsh =
      (generateZephyrJWT "key" 0 "POST" "/x" "a=1").qsh ∧
    ("a=1" : String) = "a=1" :=
  ⟨(C2_amended_verbatim_query "key" 0 "POST" "/x" "a=1" "a=1").1,
   (C2_amended_verbatim_query "key" 0 "POST" "/x" "a=1" "a=1").2.1 rfl,
   (C2_amended_verbatim_query "key" 0 "POST" "/x" "a=1" "a=1").2.2 rfl⟩

/- ===== C3 ===== -/

theorem handler_ok_shape (w : World) (body : JsValue) (items : List JsValue)
    (h : decodeBatch body = .ok items) :
    createTestsHandler w body =
      (match runBatch w items 0 0 with
       | (tr, .ok pr) => (.completed "Completed" pr.1 pr.2, tr)
       | (tr, .error e) => (.serverError e, tr)) := by
  simp [createTestsHandler, h]

theorem handler_ok_not_badRequest (w : World) (body : JsValue) (items : List JsValue)
    (h : decodeBatch body = .ok items) (m : String) :
    (createTestsHandler w body).1 ≠ .badRequest m := by
  rw [handler_ok_shape w body items h]
  rcases hr : runBatch w items 0 0 with ⟨tr, r⟩
  cases r <;> simp

/-- C3 counterexample: a `tests` string that fails `JSON.parse` makes the
handler answer 500 (the `SyntaxError` falls into the generic catch), not the
claimed 400; and a `tests` value that parses to the empty list yields a 200
response that does return the counters (`created = 0`, `skipped = 0`), not a
400. -/
theorem C3_counterexample :
    createTestsHandler benignWorld (.obj [("tests", .str "[")]) =
      (.serverError .syntaxError, []) ∧
    (statusCode (.serverError .syntaxError) == 400) = false ∧
    createTestsHandler benignWorld (.obj [("tests", .arr [])]) =
      (.completed "Completed" 0 0, []) ∧
    (statusCode (.completed "Completed" 0 0) == 400) = false :=
  ⟨rfl, rfl, rfl, rfl⟩

theorem decodeBatch_badRequest_iff (body : JsValue) :
    (decodeBatch body = .error (.badRequest "No tests received")) ↔
      (jsIsNull body = false ∧ truthyO (getProp body "tests") = false) := by
  cases body with
  | null => simp [decodeBatch, jsIsNull]
  | bool b => simp [decodeBatch, jsIsNull, getProp, truthyO]
  | num n => simp [decodeBatch, jsIsNull, getProp, truthyO]
  | str s => simp [decodeBatch, jsIsNull, getProp, truthyO]
  | arr xs => simp [decodeBatch, jsIsNull, getProp, truthyO]
  | obj fields =>
    simp only [decodeBatch, jsIsNull]
    rcases hg : getProp (JsValue.obj fields) "tests" with _ | t
    · simp [truthyO]
    · rcases ht : truthyV t with _ | _
      · simp [ht, truthyO]
      · simp only [ht, truthyO, Bool.not_true, Bool.false_eq_true, if_false]
        constructor
        · intro h
          split at h
          · next r h1 =>
              split at h1
              · split at h1
                · simp_all
                · simp_all
              · simp_all
          · split at h <;> simp_all
        · rintro ⟨-, hfalse⟩
          simp at hfalse

/-- C3 (amended): the endpoint answers 400 (error "No tests received") iff
the `tests` field of a non-null body is absent or falsy, and then nothing is
sent to any external service and no counters are returned; a non-empty
`tests` string that fails to parse yields 500 (syntax error) with no outbound
calls; and a `tests` value that is the empty array yields 200 with
`created = 0` and `skipped = 0`. -/
theorem C3_amended_400_iff (w : World) (body : JsValue) :
    ((createTestsHandler w body).1 = .badRequest "No tests received" ↔
      (jsIsNull body = false ∧ truthyO (getProp body "tests") = false)) ∧
    (jsIsNull body = false → truthyO (getProp body "tests") = false →
      createTestsHandler w body = (.badRequest "No tests received", [])) ∧
    (∀ s : String, getProp body "tests" = some (.str s) → (s == "") = false →
      jsonParse s = none →
      createTestsHandler w body = (.serverError .syntaxError, [])) ∧
    (getProp body "tests" = some (.arr []) →
      createTestsHandler w body = (.completed "Completed" 0 0, [])) := by
  refine ⟨⟨?_, ?_⟩, ?_, ?_, ?_⟩
  · intro h
    rcases hd : decodeBatch body with r | items
    · have hh : createTestsHandler w body = (r, []) := by simp [createTestsHandler, hd]
      rw [hh] at h
      exact (decodeBatch_badRequest_iff body).mp (h ▸ hd)
    · exact absurd h (handler_ok_not_badRequest w body items hd _)
  · intro hcond
    have hd := (decodeBatch_badRequest_iff body).mpr hcond
    simp [createTestsHandler, hd]
  · intro hnn hfalsy
    have hd := (decodeBatch_badRequest_iff body).mpr ⟨hnn, hfalsy⟩
    simp [createTestsHandler, hd]
  · intro s hg hs hp
    have hb : decodeBatch body = .error (.serverError .syntaxError) := by
      cases body with
      | obj fields =>
        have hs2 : ¬ s = "" := by simpa using hs
        simp [decodeBatch, hg, truthyV, hs2, hp]
      | null => simp [getProp] at hg
      | bool b => simp [getProp] at hg
      | num n => simp [getProp] at hg
      | str t => simp [getProp] at hg
      | arr xs => simp [getProp] at hg
    simp [createTestsHandler, hb]
  · intro hg
    have hb : decodeBatch body = .ok ([] : List JsValue) := by
      cases body with
      | obj fields => simp [decodeBatch, hg, truthyV, jsIterate]
      | null => simp [getProp] at hg
      | bool b => simp [getProp] at hg
      | num n => simp [getProp] at hg
      | str t => simp [getProp] at hg
      | arr xs => simp [getProp] at hg
    simp [createTestsHandler, hb, runBatch]

theorem C3_amended_400_iff_witness :
    createTestsHandler benignWorld (.obj [("tests", .bool false)]) =
      (.badRequest "No tests received", []) ∧
    createTestsHandler benignWorld (.obj [("tests", .str "not json")]) =
      (.serverError .syntaxError, []) ∧
    createTestsHandler benignWorld (.obj [("tests", .arr [])]) =
      (.completed "Completed" 0 0, []) :=
  ⟨(C3_amended_400_iff benignWorld _).2.1 rfl rfl,
   (C3_amended_400_iff benignWorld _).2.2.1 "not json" rfl rfl rfl,
   (C3_amended_400_iff benignWorld _).2.2.2 rfl⟩

/- ===== C4 ===== -/

theorem scanStringLit_escape_roundtrip (l rest : List Char) :
    scanStringLit (escapeJQLData l ++ '"' :: rest) = some (l, rest) := by
  induction l with
  | nil =>
    simp only [escapeJQLData, List.flatMap_nil, List.nil_append]
    rw [scanStringLit.eq_def]
    simp
  | cons c l ih =>
    simp only [escapeJQLData, List.flatMap_cons] at ih ⊢
    by_cases h1 : c = '"' ∨ c = '\\'
    · have he : escapeJQLChar c = ['\\', c] := by
        rcases h1 with h | h <;> simp [escapeJQLChar, h]
      rw [he]
      simp [scanStringLit, ih]
    · push_neg at h1
      have he : escapeJQLChar c = [c] := by simp [escapeJQLChar, h1.1, h1.2]
      rw [he]
      rw [List.cons_append, scanStringLit.eq_def]
      simp [h1.1, h1.2, ih]

/-- Modelled from the spec (the claim's reading): the duplicate-check query
with BOTH user-controlled embeddings passed through the escaping function —
the test name and the requirement key inside `linkedIssues("...")`. -/
def duplicateCheckJqlClaimed (projectKey storyKey testName : String) : String :=
  "project = " ++ projectKey ++
  " AND issuetype = Test AND summary = \"" ++ escapeJQL testName ++
  "\" AND issue in linkedIssues(\"" ++ escapeJQL storyKey ++ "\")"

/-- C4 counterexample: the requirement key is interpolated into
`linkedIssues("...")` without passing through `escapeJQL` — for a story key
containing a double quote the code's query keeps the raw quote and differs
from the query the claim describes (both embeddings escaped). -/
theorem C4_counterexample :
    duplicateCheckJql "P" "P\"X-1" "n" =
      "project = P AND issuetype = Test AND summary = \"n\" AND issue in linkedIssues(\"P\"X-1\")" ∧
    duplicateCheckJqlClaimed "P" "P\"X-1" "n" =
      "project = P AND issuetype = Test AND summary = \"n\" AND issue in linkedIssues(\"P\\\"X-1\")" ∧
    ((duplicateCheckJql "P" "P\"X-1" "n" == duplicateCheckJqlClaimed "P" "P\"X-1" "n") =
      false) := by decide

/-- C4 (amended): only the test name is escaped before being embedded in the
duplicate-detection query: `escapeJQL` prefixes every quote and backslash
with a backslash, so the summary string literal scans back to exactly the
original test name (the query stays syntactically valid and matches only an
exact summary); the requirement key inside `linkedIssues("...")` is embedded
verbatim, without the escaping function. -/
theorem C4_amended_escaping (projectKey storyKey testName : String) (rest : List Char) :
    scanStringLit (escapeJQLData testName.data ++ '"' :: rest) =
      some (testName.data, rest) ∧
    duplicateCheckJql projectKey storyKey testName =
      "project = " ++ projectKey ++
      " AND issuetype = Test AND summary = \"" ++ escapeJQL testName ++
      "\" AND issue in linkedIssues(\"" ++ storyKey ++ "\")" :=
  ⟨scanStringLit_escape_roundtrip testName.data rest, rfl⟩

/- ===== C5 ===== -/

/-- C5 counterexample: the handler reads the all-lowercase property
`expectedresult`, so an item that supplies the expected result under the
camel-case key `expectedResult` gets an empty `result` on its last parsed
step instead of the supplied text. -/
theorem C5_counterexample :
    formatSteps (.obj [("steps", .str "1. Open app\n2. Enter PIN\n3. Confirm"),
        ("expectedResult", .str "Dashboard shown")]) =
      [mkStep "Open app" (.str ""), mkStep "Enter PIN" (.str ""),
       mkStep "Confirm" (.str "")] ∧
    (("" == "Dashboard shown") = false) :=
  ⟨rfl, rfl⟩

theorem getD_mapIdx_aux (f : Nat → String → JsValue) (l : List String) (i : Nat)
    (h : i < l.length) :
    (l.mapIdx f).getD i JsValue.null = f i (l.getD i "") := by
  rw [List.getD_eq_getElem _ _ (by simpa using h), List.getElem_mapIdx,
    List.getD_eq_getElem _ _ h]

/-- C5 (amended): free-text steps are split on newlines, trimmed, blank lines
dropped and numbering stripped; every resulting step has empty `data`, every
step except the last has empty `result`, and the last step's `result` is the
item's `expectedresult` property (all lowercase — the code does not read the
camel-case `expectedResult` key), or empty when it is absent or falsy. The
claim's example holds with the lowercase key: three steps, no numbering
prefixes left, the last step carrying "Dashboard shown". -/
theorem C5_amended_steps (s : String) (er : Option JsValue) :
    (∀ i, i < (parseNumberedSteps (.str s) er).length →
        getProp ((parseNumberedSteps (.str s) er).getD i .null) "data" = some (.str "")) ∧
    (∀ i, i + 1 < (parseNumberedSteps (.str s) er).length →
        getProp ((parseNumberedSteps (.str s) er).getD i .null) "result" = some (.str "")) ∧
    (∀ i, i + 1 = (parseNumberedSteps (.str s) er).length →
        getProp ((parseNumberedSteps (.str s) er).getD i .null) "result" =
          some (jsOrEmptyStr er)) ∧
    formatSteps (.obj [("steps", .str "1. Open app\n2. Enter PIN\n3. Confirm"),
        ("expectedresult", .str "Dashboard shown")]) =
      [mkStep "Open app" (.str ""), mkStep "Enter PIN" (.str ""),
       mkStep "Confirm" (.str "Dashboard shown")] := by
  by_cases hs : s = ""
  · subst hs
    refine ⟨?_, ?_, ?_, rfl⟩ <;> intro i h <;> simp [parseNumberedSteps] at h
  · refine ⟨?_, ?_, ?_, rfl⟩ <;> intro i h <;>
      simp only [parseNumberedSteps, if_neg hs, List.length_mapIdx] at h ⊢
    · rw [getD_mapIdx_aux _ _ _ h]
      rfl
    · rw [getD_mapIdx_aux _ _ _ (by omega)]
      have hne : ¬ i = (List.map stripLeadingNumbering
          (List.filter (fun l => l != "")
            (List.map (fun l => jsTrim (String.mk l)) (splitChar '\n' s.data)))).length - 1 := by
        omega
      simp only [if_neg hne]
      rfl
    · rw [getD_mapIdx_aux _ _ _ (by omega)]
      have heq : i = (List.map stripLeadingNumbering
          (List.filter (fun l => l != "")
            (List.map (fun l => jsTrim (String.mk l)) (splitChar '\n' s.data)))).length - 1 := by
        omega
      simp only [if_pos heq]
      rfl

theorem C5_amended_steps_witness :
    getProp ((parseNumberedSteps (.str "1. a\n2. b") (some (.str "R"))).getD 0 .null)
      "data" = some (.str "") ∧
    getProp ((parseNumberedSteps (.str "1. a\n2. b") (some (.str "R"))).getD 0 .null)
      "result" = some (.str "") ∧
    getProp ((parseNumberedSteps (.str "1. a\n2. b") (some (.str "R"))).getD 1 .null)
      "result" = some (jsOrEmptyStr (some (.str "R"))) :=
  ⟨(C5_amended_steps "1. a\n2. b" (some (.str "R"))).1 0 (by decide),
   (C5_amended_steps "1. a\n2. b" (some (.str "R"))).2.1 0 (by decide),
   (C5_amended_steps "1. a\n2. b" (some (.str "R"))).2.2.1 1 (by decide)⟩

/- ===== C6 ===== -/

def itemCalls (w : World) (t : JsValue) : List Call := (processItem w t).1

theorem runBatch_abort (w : World) (pre : List JsValue) (t : JsValue)
    (post : List JsValue) (tr : List Call) (e : JsErr) :
    ∀ c0 s0, (∀ u ∈ pre, ∃ o, (processItem w u).2 = .ok o) →
    processItem w t = (tr, .error e) →
    runBatch w (pre ++ t :: post) c0 s0 =
      ((pre.map (itemCalls w)).flatten ++ tr, .error e) := by
  induction pre with
  | nil =>
    intro c0 s0 _ ht
    simp [runBatch, ht]
  | cons u pre ih =>
    intro c0 s0 hpre ht
    obtain ⟨o, ho⟩ := hpre u (by simp)
    have hu : processItem w u = ((processItem w u).1, Except.ok o) := by
      have hp := Prod.mk.eta (p := processItem w u)
      rw [← hp, ho]
    rw [List.cons_append]
    rw [runBatch.eq_def]
    simp only []
    rw [hu]
    cases o with
    | skip =>
      simp only []
      rw [ih c0 (s0 + 1) (fun v hv => hpre v (by simp [hv])) ht]
      simp [itemCalls, List.append_assoc]
    | made =>
      simp only []
      rw [ih (c0 + 1) s0 (fun v hv => hpre v (by simp [hv])) ht]
      simp [itemCalls, List.append_assoc]

/-- C6: the first thrown external-call error anywhere in the sequential loop
aborts the entire remaining batch: the loop's result is that single error
(the handler turns it into one 500 response carrying the failing call's error
— `error.response?.data || error.message` — and no counters), the trace
contains only the calls of the items before the failure plus the failing
item's calls, and the items after the failing one are never attempted. -/
theorem C6_first_failure_aborts (w : World) (pre : List JsValue) (t : JsValue)
    (post : List JsValue) (tr : List Call) (e : JsErr) (c0 s0 : Nat)
    (hpre : ∀ u ∈ pre, ∃ o, (processItem w u).2 = .ok o)
    (ht : processItem w t = (tr, .error e)) :
    runBatch w (pre ++ t :: post) c0 s0 =
      ((pre.map (itemCalls w)).flatten ++ tr, .error e) ∧
    (∀ body, decodeBatch body = .ok (pre ++ t :: post) →
      createTestsHandler w body =
        (.serverError e, (pre.map (itemCalls w)).flatten ++ tr)) := by
  refine ⟨runBatch_abort w pre t post tr e c0 s0 hpre ht, fun body hb => ?_⟩
  have h2 := runBatch_abort w pre t post tr e 0 0 hpre ht
  simp [createTestsHandler, hb, h2]

def failingCallErr : JsErr := .axios (some (.str "boom")) "Request failed with status code 500"

/-- An oracle on which the project lookup for key FAIL fails and every other
call succeeds. -/
def failWorld : World :=
  ⟨fun pk => if pk = "FAIL" then .error failingCallErr else .ok (.str "10001"),
   fun _ => .ok 0,
   fun _ _ _ => .ok (.str "PROJ-2"),
   fun _ _ => .ok (),
   fun _ _ => .ok ()⟩

theorem C6_first_failure_aborts_witness :
    runBatch failWorld
      [JsValue.obj [("name", .str "only-name")],
       .obj [("requirementId", .str "FAIL-1"), ("name", .str "x")],
       .obj [("requirementId", .str "P-1"), ("name", .str "y")]] 0 0 =
      ([.getProject "FAIL"], .error failingCallErr) := by
  have h := (C6_first_failure_aborts failWorld
      [JsValue.obj [("name", .str "only-name")]]
      (.obj [("requirementId", .str "FAIL-1"), ("name", .str "x")])
      [.obj [("requirementId", .str "P-1"), ("name", .str "y")]]
      [.getProject "FAIL"] failingCallErr 0 0
      (fun u hu => by
        simp only [List.mem_singleton] at hu
        subst hu
        exact ⟨.skip, rfl⟩)
      rfl).1
  have hskip : itemCalls failWorld (JsValue.obj [("name", .str "only-name")]) = [] := rfl
  simpa [hskip] using h

/- ===== C7 ===== -/

/-- C7: a batch item on which the `requirementId` or `name` property is
missing (or falsy) is counted as skipped and processing moves to the next
item without any outbound call — its call trace is empty and the loop
continues on the rest of the batch with `skipped` incremented. (`t` ranges
over batch entries on which property access is defined, i.e. non-null
values; a `null` entry throws before the validation check.) -/
theorem C7_invalid_item_skipped (w : World) (t : JsValue) (rest : List JsValue)
    (c s : Nat) (hnn : jsIsNull t = false)
    (hmiss : (truthyO (getProp t "requirementId") && truthyO (getProp t "name")) = false) :
    processItem w t = ([], .ok .skip) ∧
    runBatch w (t :: rest) c s = runBatch w rest c (s + 1) := by
  have hcond : (!truthyO (getProp t "requirementId") || !truthyO (getProp t "name")) = true := by
    cases h1 : truthyO (getProp t "requirementId") <;>
      cases h2 : truthyO (getProp t "name") <;> simp_all
  have hp : processItem w t = ([], .ok .skip) := by
    cases t with
    | null => simp [jsIsNull] at hnn
    | bool b => simp [processItem, hcond]
    | num n => simp [processItem, hcond]
    | str s2 => simp [processItem, hcond]
    | arr xs => simp [processItem, hcond]
    | obj fields => simp [processItem, hcond]
  refine ⟨hp, ?_⟩
  rw [runBatch.eq_def]
  simp only []
  rw [hp]
  simp

theorem C7_invalid_item_skipped_witness :
    processItem benignWorld (.obj [("name", .str "Login")]) = ([], .ok .skip) ∧
    runBatch benignWorld [JsValue.obj [("name", .str "Login")]] 0 0 =
      runBatch benignWorld [] 0 (0 + 1) :=
  C7_invalid_item_skipped benignWorld (.obj [("name", .str "Login")]) [] 0 0 rfl rfl

/- ===== C8 ===== -/

/-- C8: for every step-publish call, the signer input and the transmitted
request are two views of one shared request descriptor — `addTestSteps`
passes `generateZephyrJWT` exactly the method, path and query string that
form the URL of the HTTP call it then makes, so the canonicalized request
descriptor always equals the transmitted one. -/
theorem C8_shared_request_descriptor (issueKey projectId : JsValue) :
    ∃ d : RequestDesc,
      addTestStepsSignerArgs issueKey projectId = specSignerInput d ∧
      addTestStepsUrl issueKey projectId = specTransmittedUrl d ∧
      d.method = "POST" ∧
      d.path = addTestStepsApiPath issueKey ∧
      d.query = addTestStepsQueryString projectId :=
  ⟨⟨"POST", addTestStepsApiPath issueKey, addTestStepsQueryString projectId⟩,
   rfl, rfl, rfl, rfl, rfl⟩

/- ===== C9 ===== -/

theorem decodeBatch_error_shape (body : JsValue) (r : Response)
    (h : decodeBatch body = .error r) :
    r = .badRequest "No tests received" ∨ r = .serverError .syntaxError ∨
      r = .serverError .typeError := by
  cases body with
  | null =>
    simp [decodeBatch] at h
    simp [← h]
  | bool b =>
    simp [decodeBatch, getProp] at h
    simp [← h]
  | num n =>
    simp [decodeBatch, getProp] at h
    simp [← h]
  | str s =>
    simp [decodeBatch, getProp] at h
    simp [← h]
  | arr xs =>
    simp [decodeBatch, getProp] at h
    simp [← h]
  | obj fields =>
    simp only [decodeBatch] at h
    split at h
    · simp only [Except.error.injEq] at h
      simp [← h]
    · split at h
      · simp only [Except.error.injEq] at h
        simp [← h]
      · split at h
        · next r2 h1 =>
          simp only [Except.error.injEq] at h
          subst h
          split at h1
          · split at h1
            · simp only [Except.error.injEq] at h1
              simp [← h1]
            · simp at h1
          · simp at h1
        · split at h
          · simp only [Except.error.injEq] at h
            simp [← h]
          · simp at h

theorem runBatch_counts (w : World) (items : List JsValue) :
    ∀ c0 s0 c s, (runBatch w items c0 s0).2 = .ok (c, s) →
      c + s = c0 + s0 + items.length := by
  induction items with
  | nil =>
    intro c0 s0 c s h
    simp only [runBatch, Except.ok.injEq, Prod.mk.injEq] at h
    obtain ⟨h1, h2⟩ := h
    simp [← h1, ← h2]
  | cons t rest ih =>
    intro c0 s0 c s h
    rw [runBatch.eq_def] at h
    simp only [] at h
    rcases hp : processItem w t with ⟨tr, r⟩
    rw [hp] at h
    cases r with
    | error e => simp at h
    | ok o =>
      cases o with
      | skip =>
        simp only [] at h
        have hih := ih c0 (s0 + 1) c s h
        simp only [List.length_cons]
        omega
      | made =>
        simp only [] at h
        have hih := ih (c0 + 1) s0 c s h
        simp only [List.length_cons]
        omega

/-- C9: whenever the endpoint answers 200, every batch item has bumped
exactly one of the two counters, so the returned `created` plus `skipped`
equals the number of items of the parsed batch. -/
theorem C9_counts_partition (w : World) (body : JsValue) (msg : String)
    (created skipped : Nat) (tr : List Call)
    (h : createTestsHandler w body = (.completed msg created skipped, tr)) :
    ∃ items, decodeBatch body = .ok items ∧ created + skipped = items.length := by
  rcases hd : decodeBatch body with r | items
  · have hh : createTestsHandler w body = (r, []) := by simp [createTestsHandler, hd]
    rw [hh] at h
    have hr : r = .completed msg created skipped := by
      simpa using congrArg Prod.fst h
    rcases decodeBatch_error_shape body r hd with h1 | h1 | h1 <;> rw [hr] at h1 <;>
      simp at h1
  · refine ⟨items, rfl, ?_⟩
    have hh := handler_ok_shape w body items hd
    rw [hh] at h
    rcases hr : runBatch w items 0 0 with ⟨tr2, r2⟩
    rw [hr] at h
    cases r2 with
    | error e => simp at h
    | ok pr =>
      simp only [Prod.mk.injEq, Response.completed.injEq] at h
      have hc := runBatch_counts w items 0 0 pr.1 pr.2 (by rw [hr])
      omega

theorem C9_counts_partition_witness :
    ∃ items,
      decodeBatch (.obj [("tests", .arr [.obj [("name", .str "w9")]])]) = .ok items ∧
      0 + 1 = items.length :=
  C9_counts_partition benignWorld _ "Completed" 0 1 [] rfl

/- ===== C10 ===== -/

/-- C10: a free-text line consisting only of a numbering token (here the
middle line "2.") survives the blank-line filter — it is not blank after
trimming — and the numbering pattern strips it to the empty string, so the
parser emits a step object whose `step` text is empty. -/
theorem C10_empty_action_step :
    jsTrim "2." = "2." ∧
    stripLeadingNumbering "2." = "" ∧
    parseNumberedSteps (.str "1. Open\n2.\n3. Close") none =
      [mkStep "Open" (.str ""), mkStep "" (.str ""), mkStep "Close" (.str "")] :=
  ⟨rfl, rfl, rfl⟩
